import Mathlib

/-!
Verification of the `spellcheck` program (`email_gen/api/api.py`).

The program fetches a text document over HTTP, tokenizes it, spell-checks
every token concurrently against a remote authority (HTTP 404 on the lookup
means "misspelled"), collects the misspelled words in completion order,
validates that their first-occurrence positions in the document are
non-decreasing, and returns the lowercase MD5 hex digest of their
concatenation (with a fixed mailbox suffix).

This file gives a shallow embedding of each component and proves or refutes
the specification's claims about them.
-/

/-! ## Tokenizer: `clean_and_format_document` -/

/-- Split a character list at every space or hyphen, keeping empty fragments,
mirroring Python `re.split(' |-', s)`. -/
def splitSepsAux : List Char → List Char → List (List Char)
  | [], acc => [acc.reverse]
  | c :: rest, acc =>
    if c = ' ' ∨ c = '-' then acc.reverse :: splitSepsAux rest []
    else splitSepsAux rest (c :: acc)

/-- `clean_and_format_document` from `api.py`: replace newlines with spaces,
split on spaces and hyphens, strip every character that is not an ASCII
letter or apostrophe (`re.sub(r"[^A-Za-z']", "", word)`), and keep the
fragments that remain non-empty, in scan order. -/
def clean_and_format_document (doc_text : String) : List String :=
  let replaced := doc_text.data.map (fun c => if c = '\n' then ' ' else c)
  let fragments := splitSepsAux replaced []
  fragments.filterMap (fun frag =>
    let cleaned := frag.filter (fun c => c.isAlpha || c == '\'')
    if cleaned.isEmpty then none else some (String.mk cleaned))

/-! ## Python `str.find` -/

/-- First index `≥ i` (counting from the start of this list at index `i`) at
which `w` occurs as a contiguous sublist, if any. -/
def findAux : List Char → List Char → Nat → Option Nat
  | [], w, i => if w.isEmpty then some i else none
  | c :: rest, w, i =>
    if w.isPrefixOf (c :: rest) then some i else findAux rest w (i + 1)

/-- Python `doc.find(w)`: index of the first occurrence of `w` in `doc`,
or `-1` when `w` does not occur. -/
def pyFind (doc w : String) : Int :=
  match findAux doc.data w.data 0 with
  | some n => (n : Int)
  | none => -1

/-! ## MD5 (the digest used by `hashlib.md5(...).hexdigest()`) -/

/-- The 64 MD5 sine-derived round constants. -/
def Kmd5 : List Nat :=
  [0xd76aa478, 0xe8c7b756, 0x242070db, 0xc1bdceee,
   0xf57c0faf, 0x4787c62a, 0xa8304613, 0xfd469501,
   0x698098d8, 0x8b44f7af, 0xffff5bb1, 0x895cd7be,
   0x6b901122, 0xfd987193, 0xa679438e, 0x49b40821,
   0xf61e2562, 0xc040b340, 0x265e5a51, 0xe9b6c7aa,
   0xd62f105d, 0x02441453, 0xd8a1e681, 0xe7d3fbc8,
   0x21e1cde6, 0xc33707d6, 0xf4d50d87, 0x455a14ed,
   0xa9e3e905, 0xfcefa3f8, 0x676f02d9, 0x8d2a4c8a,
   0xfffa3942, 0x8771f681, 0x6d9d6122, 0xfde5380c,
   0xa4beea44, 0x4bdecfa9, 0xf6bb4b60, 0xbebfbc70,
   0x289b7ec6, 0xeaa127fa, 0xd4ef3085, 0x04881d05,
   0xd9d4d039, 0xe6db99e5, 0x1fa27cf8, 0xc4ac5665,
   0xf4292244, 0x432aff97, 0xab9423a7, 0xfc93a039,
   0x655b59c3, 0x8f0ccc92, 0xffeff47d, 0x85845dd1,
   0x6fa87e4f, 0xfe2ce6e0, 0xa3014314, 0x4e0811a1,
   0xf7537e82, 0xbd3af235, 0x2ad7d2bb, 0xeb86d391]

/-- The 64 MD5 per-round left-rotation amounts. -/
def Smd5 : List Nat :=
  [7, 12, 17, 22, 7, 12, 17, 22, 7, 12, 17, 22, 7, 12, 17, 22,
   5, 9, 14, 20, 5, 9, 14, 20, 5, 9, 14, 20, 5, 9, 14, 20,
   4, 11, 16, 23, 4, 11, 16, 23, 4, 11, 16, 23, 4, 11, 16, 23,
   6, 10, 15, 21, 6, 10, 15, 21, 6, 10, 15, 21, 6, 10, 15, 21]

/-- Rotate a 32-bit value left by `n` bits. -/
def rotl32 (x n : Nat) : Nat :=
  ((x <<< n) % 4294967296) ||| (x >>> (32 - n))

/-- The sixteen little-endian 32-bit message words of one 64-byte block. -/
def wordsOfBlock (block : List Nat) : List Nat :=
  (List.range 16).map (fun j =>
    block.getD (4 * j) 0 + 256 * block.getD (4 * j + 1) 0 +
      65536 * block.getD (4 * j + 2) 0 + 16777216 * block.getD (4 * j + 3) 0)

/-- One of the 64 MD5 operations, acting on the state `(a, b, c, d)`. -/
def md5Step (M : List Nat) (st : Nat × Nat × Nat × Nat) (i : Nat) :
    Nat × Nat × Nat × Nat :=
  match st with
  | (a, b, c, d) =>
    let f :=
      if i < 16 then (b &&& c) ||| ((b ^^^ 4294967295) &&& d)
      else if i < 32 then (d &&& b) ||| ((d ^^^ 4294967295) &&& c)
      else if i < 48 then b ^^^ c ^^^ d
      else c ^^^ (b ||| (d ^^^ 4294967295))
    let g :=
      if i < 16 then i
      else if i < 32 then (5 * i + 1) % 16
      else if i < 48 then (3 * i + 5) % 16
      else (7 * i) % 16
    let tmp := (f + a + Kmd5.getD i 0 + M.getD g 0) % 4294967296
    (d, (b + rotl32 tmp (Smd5.getD i 0)) % 4294967296, b, c)

/-- Absorb one 64-byte block into the MD5 state. -/
def processBlock (st : Nat × Nat × Nat × Nat) (block : List Nat) :
    Nat × Nat × Nat × Nat :=
  let M := wordsOfBlock block
  match st, (List.range 64).foldl (md5Step M) st with
  | (a0, b0, c0, d0), (a, b, c, d) =>
    ((a0 + a) % 4294967296, (b0 + b) % 4294967296,
     (c0 + c) % 4294967296, (d0 + d) % 4294967296)

/-- MD5 padding: a `0x80` byte, zeros to 56 mod 64, then the 64-bit
little-endian bit length of the original message. -/
def padMd5 (msg : List Nat) : List Nat :=
  let len := msg.length
  let zeros := (119 - len % 64) % 64
  let bitLen := (len * 8) % 18446744073709551616
  msg ++ 128 :: List.replicate zeros 0 ++
    [bitLen % 256, (bitLen >>> 8) % 256, (bitLen >>> 16) % 256,
     (bitLen >>> 24) % 256, (bitLen >>> 32) % 256, (bitLen >>> 40) % 256,
     (bitLen >>> 48) % 256, (bitLen >>> 56) % 256]

/-- Little-endian byte serialization of a 32-bit word. -/
def toLE4 (n : Nat) : List Nat :=
  [n % 256, (n >>> 8) % 256, (n >>> 16) % 256, (n >>> 24) % 256]

/-- The 16 MD5 digest bytes of a byte string. -/
def md5Bytes (msg : List Nat) : List Nat :=
  let padded := padMd5 msg
  match (List.range (padded.length / 64)).foldl
      (fun st bi => processBlock st ((padded.drop (64 * bi)).take 64))
      (1732584193, 4023233417, 2562383102, 271733878) with
  | (a, b, c, d) => toLE4 a ++ toLE4 b ++ toLE4 c ++ toLE4 d

/-- Lowercase hexadecimal digit for a nibble. -/
def hexChar (n : Nat) : Char :=
  Char.ofNat (if n < 10 then 48 + n else 87 + n)

/-- Lowercase hexadecimal rendering of a byte string. -/
def bytesToHex (bs : List Nat) : String :=
  String.mk (bs.foldr (fun b acc => hexChar (b / 16 % 16) :: hexChar (b % 16) :: acc) [])

/-- `hashlib.md5(s.encode()).hexdigest()` for an ASCII string `s`. -/
def md5hex (s : String) : String :=
  bytesToHex (md5Bytes (s.data.map Char.toNat))

/-! ## Order Reconciler and Digest Builder: `validate_and_hash` -/

/-- The cursor loop of `validate_and_hash`: for each word take
`idx = doc_text.find(word)` (first occurrence in the whole document), raise
the alignment error when `idx < doc_idx`, otherwise set `doc_idx = idx`. -/
def validateLoop (doc : String) : List String → Int → Except String Int
  | [], doc_idx => Except.ok doc_idx
  | w :: rest, doc_idx =>
    if pyFind doc w < doc_idx then
      Except.error "Misspelled words are out of alignment. Need to re-verify"
    else validateLoop doc rest (pyFind doc w)

/-- `validate_and_hash` from `api.py`: reject an empty list, run the
alignment check, then return the lowercase MD5 hex digest of the
concatenated misspelled words. -/
def validate_and_hash (misspelled_words : List String) (doc_text : String) :
    Except String String :=
  if misspelled_words.isEmpty then
    Except.error "No words misspelled words found"
  else
    match validateLoop doc_text misspelled_words 0 with
    | Except.error e => Except.error e
    | Except.ok _ => Except.ok (md5hex (String.join misspelled_words))

/-- Modelled from the spec (section 4.3 Order Reconciler), for comparison
with the source's `validate_and_hash`: "locate each word's occurrence
starting at or after the cursor's current position, then advance the cursor
to that occurrence's start. If a word cannot be found at or after the
cursor, the reconciliation fails with an out-of-alignment error." -/
def validateSpecLoop (doc : String) : List String → Nat → Except String Nat
  | [], cursor => Except.ok cursor
  | w :: rest, cursor =>
    match findAux (doc.data.drop cursor) w.data cursor with
    | none =>
      Except.error "Misspelled words are out of alignment. Need to re-verify"
    | some idx => validateSpecLoop doc rest idx

/-- Modelled from the spec: `validate_and_hash` with the reconciliation loop
replaced by the spec's forward-from-the-cursor search. -/
def validateSpecCursor (misspelled_words : List String) (doc_text : String) :
    Except String String :=
  if misspelled_words.isEmpty then
    Except.error "No words misspelled words found"
  else
    match validateSpecLoop doc_text misspelled_words 0 with
    | Except.error e => Except.error e
    | Except.ok _ => Except.ok (md5hex (String.join misspelled_words))

/-! ## Concurrent Checker and top-level `get_outside_email`

The HTTP environment is a parameter: the document fetch outcome is an
`Except String (Nat × String)` (network error, or status code and body), and
each spelling lookup outcome is an `Except String Nat` (network error, or
status code).  The nondeterministic `as_completed` order of the thread-pool
futures is modelled by the order of the `arrivals` list, which in any actual
run is a permutation of one `(word, outcome)` entry per token. -/

/-- Events observable on the wire, used to state when lookups are issued. -/
inductive Event where
  | docFetch : Event
  | lookup : String → Event
deriving DecidableEq

instance : DecidableEq (Except String Nat) := fun a b =>
  match a, b with
  | Except.error e, Except.error f =>
    if h : e = f then isTrue (by rw [h]) else isFalse (by intro hh; cases hh; exact h rfl)
  | Except.ok x, Except.ok y =>
    if h : x = y then isTrue (by rw [h]) else isFalse (by intro hh; cases hh; exact h rfl)
  | Except.error _, Except.ok _ => isFalse (by intro hh; cases hh)
  | Except.ok _, Except.error _ => isFalse (by intro hh; cases hh)

/-- `get_document` from `api.py`: propagate a network error, raise on a
non-200 status, otherwise return the body text. -/
def get_document (docResp : Except String (Nat × String)) : Except String String :=
  match docResp with
  | Except.error e => Except.error e
  | Except.ok (status, text) =>
    if status ≠ 200 then
      Except.error ("Received an HTTP " ++ toString status ++
        " when attempting to retrieve the document")
    else Except.ok text

/-- The `as_completed` collection loop of `get_outside_email`: walk the
lookup results in completion order; `future.result()` re-raises a lookup's
network error, otherwise the word is appended to `misspelled_words` exactly
when the status is 404. -/
def processLookups : List (String × Except String Nat) → Except String (List String)
  | [] => Except.ok []
  | (_, Except.error e) :: _ => Except.error e
  | (w, Except.ok s) :: rest =>
    match processLookups rest with
    | Except.error e => Except.error e
    | Except.ok ms => Except.ok (if s = 404 then w :: ms else ms)

/-- The misspelled words an arrival list contributes, in arrival order:
exactly the words whose lookup returned status 404. -/
def misspelledOf (arr : List (String × Except String Nat)) : List String :=
  arr.filterMap (fun p =>
    match p.2 with
    | Except.ok s => if s = 404 then some p.1 else none
    | Except.error _ => none)

/-- The lookup table a responder assigns to a token list: one entry per
occurrence, keyed by the word text (all lookups for the same text hit the
same URL). -/
def okTable (resp : String → Nat) (ws : List String) :
    List (String × Except String Nat) :=
  ws.map (fun w => (w, Except.ok (resp w)))

/-- `get_outside_email` from `api.py`, as a function of the HTTP outcomes
and the future-completion order.  Returns the `email_address` value (or
`none` when the top-level handler caught an exception) together with the
trace of wire events: the document fetch, then one lookup per cleaned word
submitted in token order. -/
def get_outside_email (docResp : Except String (Nat × String))
    (arrivals : List (String × Except String Nat)) :
    Option String × List Event :=
  match get_document docResp with
  | Except.error _ => (none, [Event.docFetch])
  | Except.ok doc_text =>
    let clean_words := clean_and_format_document doc_text
    let trace := Event.docFetch :: clean_words.map Event.lookup
    match processLookups arrivals with
    | Except.error _ => (none, trace)
    | Except.ok misspelled_words =>
      match validate_and_hash misspelled_words doc_text with
      | Except.error _ => (none, trace)
      | Except.ok email => (some (email ++ "@outsideinc.com"), trace)

/-- The document used by the repository's unit tests (`TEST_DOC_TEXT`). -/
def TEST_DOC_TEXT : String :=
  "\nUnit-testing.\n\nThis is forr the Outside interveiw test!"

/-! ## Lemmas about the reconciliation loop -/

/-- The alignment loop succeeds exactly when the first-occurrence indices of
the words, prefixed with the initial cursor, form a non-decreasing chain. -/
theorem validateLoop_ok_iff (doc : String) (ws : List String) (i : Int) :
    (∃ j, validateLoop doc ws i = Except.ok j) ↔
      List.Chain' (fun a b : Int => a ≤ b) (i :: ws.map (pyFind doc)) := by
  induction ws generalizing i with
  | nil => simp [validateLoop]
  | cons w rest ih =>
    simp only [validateLoop, List.map_cons, List.chain'_cons]
    by_cases hp : pyFind doc w < i
    · rw [if_pos hp]
      constructor
      · rintro ⟨j, hj⟩
        cases hj
      · rintro ⟨hle, _⟩
        exact absurd hp (not_lt.mpr hle)
    · rw [if_neg hp, ih (pyFind doc w)]
      exact ⟨fun h => ⟨not_lt.mp hp, h⟩, fun h => h.2⟩

/-- For a non-empty word list, `validate_and_hash` succeeds (necessarily with
the digest of the concatenation) iff the first-occurrence indices are
non-decreasing starting from cursor `0`. -/
theorem validate_and_hash_ok_iff (ws : List String) (doc : String) (h : ws ≠ []) :
    validate_and_hash ws doc = Except.ok (md5hex (String.join ws)) ↔
      List.Chain' (fun a b : Int => a ≤ b) (0 :: ws.map (pyFind doc)) := by
  have hne : ws.isEmpty = false := by
    cases ws with
    | nil => exact absurd rfl h
    | cons a l => rfl
  rw [← validateLoop_ok_iff doc ws 0]
  unfold validate_and_hash
  rw [hne]
  simp only [Bool.false_eq_true, if_false]
  constructor
  · intro hok
    rcases hloop : validateLoop doc ws 0 with e | j
    · rw [hloop] at hok
      cases hok
    · exact ⟨j, rfl⟩
  · rintro ⟨j, hj⟩
    rw [hj]

/-- Whenever `validate_and_hash` returns a digest, that digest is the MD5 hex
digest of the separator-free concatenation of the words. -/
theorem validate_and_hash_ok (ms : List String) (doc r : String)
    (h : validate_and_hash ms doc = Except.ok r) :
    r = md5hex (String.join ms) := by
  unfold validate_and_hash at h
  by_cases hne : ms.isEmpty = true
  · rw [if_pos hne] at h
    cases h
  · rw [if_neg hne] at h
    rcases hloop : validateLoop doc ms 0 with e | j <;> rw [hloop] at h
    · cases h
    · injection h with h
      exact h.symm

/-- Re-checking the same word against a cursor already sitting at its first
occurrence never moves the cursor and never raises. -/
theorem validateLoop_replicate (doc w : String) (m : Nat) :
    validateLoop doc (List.replicate m w) (pyFind doc w) =
      Except.ok (pyFind doc w) := by
  induction m with
  | zero => rfl
  | succ m ih =>
    simp only [List.replicate_succ, validateLoop]
    rw [if_neg (lt_irrefl (pyFind doc w))]
    exact ih

/-- If `w` occurs somewhere in `doc` (as a contiguous sublist), the
first-occurrence search succeeds. -/
theorem findAux_isSome (w : List Char) (doc : List Char) :
    ∀ i : Nat, (∃ j, w.isPrefixOf (doc.drop j) = true) →
      ∃ k, findAux doc w i = some k := by
  induction doc with
  | nil =>
    rintro i ⟨j, hj⟩
    rw [List.drop_nil] at hj
    have hwnil : w = [] := by
      cases w with
      | nil => rfl
      | cons c cs => simp [List.isPrefixOf] at hj
    subst hwnil
    exact ⟨i, rfl⟩
  | cons c rest ih =>
    rintro i ⟨j, hj⟩
    by_cases hp : w.isPrefixOf (c :: rest) = true
    · exact ⟨i, by simp [findAux, hp]⟩
    · cases j with
      | zero =>
        rw [List.drop_zero] at hj
        exact absurd hj hp
      | succ j =>
        rw [List.drop_succ_cons] at hj
        obtain ⟨k, hk⟩ := ih (i + 1) ⟨j, hj⟩
        exact ⟨k, by simp [findAux, hp, hk]⟩

/-! ## Lemmas about the concurrent-collection loop -/

/-- When every arrived lookup has a status (no network error), the collection
loop returns exactly the 404-flagged words, in arrival order. -/
theorem processLookups_allOk (arr : List (String × Except String Nat))
    (h : ∀ p ∈ arr, ∃ s, p.2 = Except.ok s) :
    processLookups arr = Except.ok (misspelledOf arr) := by
  induction arr with
  | nil => rfl
  | cons p rest ih =>
    obtain ⟨w, r⟩ := p
    obtain ⟨s, hs⟩ := h (w, r) (List.mem_cons_self _ _)
    simp only at hs
    subst hs
    simp only [processLookups, misspelledOf, List.filterMap_cons]
    rw [ih (fun q hq => h q (List.mem_cons_of_mem _ hq))]
    by_cases h4 : s = 404
    · simp [misspelledOf, h4]
    · simp [misspelledOf, h4]

/-- A lookup that arrived as a network error makes the collection loop
re-raise: the loop never returns a word list. -/
theorem processLookups_error_of_mem (arr : List (String × Except String Nat))
    (w msg : String) (h : (w, Except.error msg) ∈ arr) :
    ∃ e, processLookups arr = Except.error e := by
  induction arr with
  | nil => cases h
  | cons p rest ih =>
    obtain ⟨v, r⟩ := p
    cases r with
    | error e => exact ⟨e, rfl⟩
    | ok s =>
      rcases List.mem_cons.mp h with heq | hmem
      · simp at heq
      · obtain ⟨e, he⟩ := ih hmem
        exact ⟨e, by simp only [processLookups, he]⟩

/-- Whatever word list the collection loop returns is the 404-flagged
subsequence of the arrivals. -/
theorem processLookups_ok_eq (arr : List (String × Except String Nat))
    (ms : List String) (h : processLookups arr = Except.ok ms) :
    ms = misspelledOf arr := by
  induction arr generalizing ms with
  | nil =>
    injection h with h
    simp [← h, misspelledOf]
  | cons p rest ih =>
    obtain ⟨w, r⟩ := p
    cases r with
    | error e => cases h
    | ok s =>
      simp only [processLookups] at h
      rcases hrest : processLookups rest with e | ms'
      · rw [hrest] at h
        cases h
      · rw [hrest] at h
        injection h with h
        rw [← h, ih ms' hrest]
        simp only [misspelledOf, List.filterMap_cons]
        by_cases h4 : s = 404 <;> simp [h4, misspelledOf]

/-- A word is among the collected misspelled words iff one of its lookups
arrived with status 404. -/
theorem mem_misspelledOf (arr : List (String × Except String Nat)) (w : String) :
    w ∈ misspelledOf arr ↔ (w, Except.ok 404) ∈ arr := by
  induction arr with
  | nil => simp [misspelledOf]
  | cons p rest ih =>
    obtain ⟨v, r⟩ := p
    simp only [misspelledOf, List.filterMap_cons] at *
    cases r with
    | error e => simp [ih]
    | ok s =>
      by_cases h4 : s = 404
      · subst h4
        simp [List.mem_cons, ih, Prod.ext_iff, eq_comm]
      · simp only [if_neg h4]
        simp only [ih, List.mem_cons, Prod.ext_iff, iff_or_self]
        exact fun ⟨_, hs⟩ => absurd (Except.ok.inj hs).symm h4

/-! ## Lemmas about the hex digest -/

/-- Every lowercase hex digit produced for a nibble is one of the sixteen
characters `0123456789abcdef`. -/
theorem hexChar_mem_hexdigits (n : Nat) (h : n < 16) :
    hexChar n ∈ ("0123456789abcdef").data := by
  interval_cases n <;> decide

/-- Every character of a hex rendering is a lowercase hex digit. -/
theorem mem_bytesToHex (bs : List Nat) (c : Char)
    (hc : c ∈ (bytesToHex bs).data) : c ∈ ("0123456789abcdef").data := by
  induction bs with
  | nil => cases hc
  | cons b rest ih =>
    rcases List.mem_cons.mp hc with h | hc'
    · subst h
      exact hexChar_mem_hexdigits _ (Nat.mod_lt _ (by norm_num))
    · rcases List.mem_cons.mp hc' with h | hc''
      · subst h
        exact hexChar_mem_hexdigits _ (Nat.mod_lt _ (by norm_num))
      · exact ih hc''

/-- A hex rendering has two characters per byte. -/
theorem bytesToHex_length (bs : List Nat) :
    (bytesToHex bs).length = 2 * bs.length := by
  induction bs with
  | nil => rfl
  | cons b rest ih =>
    show ((bytesToHex rest).data.length + 1) + 1 = 2 * (rest.length + 1)
    have : (bytesToHex rest).data.length = 2 * rest.length := ih
    omega

/-- An MD5 digest has sixteen bytes. -/
theorem md5Bytes_length (msg : List Nat) : (md5Bytes msg).length = 16 := by
  unfold md5Bytes
  rcases hfold : (List.range ((padMd5 msg).length / 64)).foldl
      (fun st bi => processBlock st (((padMd5 msg).drop (64 * bi)).take 64))
      (1732584193, 4023233417, 2562383102, 271733878) with ⟨a, b, c, d⟩
  simp [toLE4]

/-! ## Claims -/

/-- C1 (counterexample): the claim "two runs differing only in lookup
completion order produce the same result" is false.  With document `"a b"`
and both words verdicted misspelled (status 404), the two completion orders
are permutations of the same lookup results, yet one run returns an email
address and the other aborts with the alignment error and returns none. -/
theorem C1_counterexample :
    List.Perm
      [("a", (Except.ok 404 : Except String Nat)), ("b", Except.ok 404)]
      [("b", Except.ok 404), ("a", Except.ok 404)] ∧
    (get_outside_email (Except.ok (200, "a b"))
        [("a", Except.ok 404), ("b", Except.ok 404)]).1 ≠
      (get_outside_email (Except.ok (200, "a b"))
        [("b", Except.ok 404), ("a", Except.ok 404)]).1 := by
  constructor
  · exact List.Perm.swap ("b", Except.ok 404) ("a", Except.ok 404) []
  · intro h
    have h1 : (get_outside_email (Except.ok (200, "a b"))
        [("a", Except.ok 404), ("b", Except.ok 404)]).1 =
        some (md5hex "ab" ++ "@outsideinc.com") := rfl
    have h2 : (get_outside_email (Except.ok (200, "a b"))
        [("b", Except.ok 404), ("a", Except.ok 404)]).1 = none := rfl
    rw [h1, h2] at h
    cases h

/-- C1 (amended): the result of `get_outside_email` is not independent of the
lookup completion order; it is independent exactly of the interleaving that
preserves the relative order of the misspelled (404) words.  Two completion
orders of the same verdicted lookups that list the 404 words in the same
relative order produce the same result (and trace). -/
theorem C1_result_determined_by_misspelled_order
    (doc : String) (resp : String → Nat)
    (arr₁ arr₂ : List (String × Except String Nat))
    (h₁ : List.Perm arr₁ (okTable resp (clean_and_format_document doc)))
    (h₂ : List.Perm arr₂ (okTable resp (clean_and_format_document doc)))
    (hms : misspelledOf arr₁ = misspelledOf arr₂) :
    get_outside_email (Except.ok (200, doc)) arr₁ =
      get_outside_email (Except.ok (200, doc)) arr₂ := by
  have hall : ∀ (arr : List (String × Except String Nat)),
      List.Perm arr (okTable resp (clean_and_format_document doc)) →
      ∀ p ∈ arr, ∃ s, p.2 = Except.ok s := by
    intro arr hperm p hp
    have hmem : p ∈ okTable resp (clean_and_format_document doc) :=
      hperm.mem_iff.mp hp
    obtain ⟨w, _, hw⟩ := List.mem_map.mp hmem
    exact ⟨resp w, by rw [← hw]⟩
  have e1 := processLookups_allOk arr₁ (hall arr₁ h₁)
  have e2 := processLookups_allOk arr₂ (hall arr₂ h₂)
  simp only [get_outside_email, get_document, e1, e2, hms]

/-- Witness for C1: with document `"a b"` and only `"a"` misspelled, two
completion orders that differ only in where the correctly-spelled `"b"`
arrives give identical results. -/
theorem C1_witness :
    get_outside_email (Except.ok (200, "a b"))
        [("a", Except.ok 404), ("b", Except.ok 204)] =
      get_outside_email (Except.ok (200, "a b"))
        [("b", Except.ok 204), ("a", Except.ok 404)] :=
  C1_result_determined_by_misspelled_order "a b"
    (fun w => if w = "a" then 404 else 204) _ _ (by decide) (by decide) rfl

/-- C2 (counterexample): full-set reconciliation does not succeed for every
document.  The document `"a1b"` tokenizes to `["ab"]`, but `"ab"` does not
occur in the text (`find` returns `-1 < 0`), so `validate_and_hash` on the
full token list raises the alignment error. -/
theorem C2_counterexample :
    clean_and_format_document "a1b" = ["ab"] ∧
    validate_and_hash (clean_and_format_document "a1b") "a1b" =
      Except.error "Misspelled words are out of alignment. Need to re-verify" :=
  ⟨rfl, rfl⟩

/-- C2 (amended): for a document whose token list is non-empty, full-set
reconciliation succeeds — processing the tokens unchanged in tokenized
order and returning the digest of their concatenation — if and only if the
first-occurrence positions of the tokens (`doc.find`) are non-decreasing
from the initial cursor `0`, which is exactly the condition the code
checks.  (Stripped characters and repeated substrings can break this even
though tokenization itself succeeded, as the counterexample shows.) -/
theorem C2_roundtrip_monotone (doc : String)
    (h1 : clean_and_format_document doc ≠ []) :
    validate_and_hash (clean_and_format_document doc) doc =
      Except.ok (md5hex (String.join (clean_and_format_document doc))) ↔
      List.Chain' (fun a b : Int => a ≤ b)
        (0 :: (clean_and_format_document doc).map (pyFind doc)) :=
  validate_and_hash_ok_iff _ doc h1

/-- Witness for C2: the document `"a b"` satisfies the monotonicity
condition, and full-set reconciliation succeeds on it. -/
theorem C2_witness :
    validate_and_hash (clean_and_format_document "a b") "a b" =
      Except.ok (md5hex (String.join (clean_and_format_document "a b"))) :=
  (C2_roundtrip_monotone "a b" (by decide)).mpr (by
    show List.Chain' (fun a b : Int => a ≤ b) [0, 0, 2]
    refine List.chain'_cons.mpr ⟨by decide, ?_⟩
    refine List.chain'_cons.mpr ⟨by decide, ?_⟩
    exact List.chain'_singleton _)

/-- C3 (counterexample): the reconciler does not search "starting at or
after the current cursor position".  For document `"x y x"` and words
`["y", "x"]`, a forward-from-the-cursor search (the spec-modelled
`validateSpecCursor`) finds the second `"x"` at position 4 and succeeds,
while the code takes the global first occurrence `find("x") = 0 < 2` and
raises the alignment error. -/
theorem C3_counterexample :
    validateSpecCursor ["y", "x"] "x y x" = Except.ok (md5hex "yx") ∧
    validate_and_hash ["y", "x"] "x y x" =
      Except.error "Misspelled words are out of alignment. Need to re-verify" :=
  ⟨rfl, rfl⟩

/-- C3 (amended): the reconciler locates each word at its first occurrence
in the entire document (`doc.find(word)`, independent of the cursor),
advances the cursor there, and raises the out-of-alignment error exactly
when some word's first occurrence lies strictly before the cursor;
equivalently, a non-empty list reconciles iff the first-occurrence positions
are non-decreasing from 0.  In particular, reconciling
`["interview", "forr"]` against the test document fails with the alignment
error (`"interview"` does not occur, so its position is `-1 < 0`). -/
theorem C3_first_occurrence_alignment :
    (∀ (doc : String) (ws : List String), ws ≠ [] →
      (validate_and_hash ws doc = Except.ok (md5hex (String.join ws)) ↔
        List.Chain' (fun a b : Int => a ≤ b) (0 :: ws.map (pyFind doc)))) ∧
    validate_and_hash ["interview", "forr"] TEST_DOC_TEXT =
      Except.error "Misspelled words are out of alignment. Need to re-verify" :=
  ⟨fun doc ws h => validate_and_hash_ok_iff ws doc h, rfl⟩

/-- Witness for C3: instantiating the characterization at document `"x"`
with word list `["x"]`. -/
theorem C3_witness :
    validate_and_hash ["x"] "x" = Except.ok (md5hex (String.join ["x"])) :=
  (C3_first_occurrence_alignment.1 "x" ["x"] (by decide)).mpr (by
    show List.Chain' (fun a b : Int => a ≤ b) [0, 0]
    exact List.chain'_cons.mpr ⟨by decide, List.chain'_singleton _⟩)

/-- C4 (counterexample): a lookup network error does not degrade to "not
misspelled" — `future.result()` re-raises it and the whole operation aborts
without a digest.  Here `"a"` is misspelled and `"b"`'s lookup times out;
the claim would produce the digest of `"a"`, but the run returns none. -/
theorem C4_counterexample :
    (get_outside_email (Except.ok (200, "a b"))
      [("a", Except.ok 404), ("b", Except.error "timeout")]).1 = none := rfl

/-- C4 (amended): a network error on any individual spelling lookup
propagates when its future's result is collected, aborting the whole
operation: no digest is produced (the top-level handler catches the
exception), and no retry occurs. -/
theorem C4_lookup_error_aborts (docResp : Except String (Nat × String))
    (arr : List (String × Except String Nat)) (w msg : String)
    (hmem : (w, Except.error msg) ∈ arr) :
    (get_outside_email docResp arr).1 = none := by
  obtain ⟨e, he⟩ := processLookups_error_of_mem arr w msg hmem
  rcases hdoc : get_document docResp with e' | t
  · simp [get_outside_email, hdoc]
  · simp [get_outside_email, hdoc, he]

/-- Witness for C4: a concrete run in which one lookup times out and the
operation yields no digest. -/
theorem C4_witness :
    (get_outside_email (Except.ok (200, "a c"))
      [("a", Except.ok 404), ("c", Except.error "timed out")]).1 = none :=
  C4_lookup_error_aborts _ _ "c" "timed out"
    (List.Mem.tail _ (List.Mem.head _))

/-- C5: whenever the collection loop returns a misspelled list, that list is
exactly the 404-flagged arrivals in order, and a word is in it iff its
lookup arrived with status 404 — every other status (including 500) leaves
the word treated as correctly spelled. -/
theorem C5_misspelled_iff_404 (arr : List (String × Except String Nat))
    (ms : List String) (h : processLookups arr = Except.ok ms) :
    ms = misspelledOf arr ∧ ∀ w, w ∈ ms ↔ (w, Except.ok 404) ∈ arr := by
  have heq := processLookups_ok_eq arr ms h
  exact ⟨heq, fun w => by rw [heq]; exact mem_misspelledOf arr w⟩

/-- Witness for C5: with arrivals `x ↦ 404` and `y ↦ 500`, the collected
list is `["x"]`, and `"x"` is in it because its status was 404. -/
theorem C5_witness :
    ((["x"] : List String) =
      misspelledOf [("x", Except.ok 404), ("y", Except.ok 500)]) ∧
    (("x" : String) ∈ (["x"] : List String) ↔
      (("x", Except.ok 404) : String × Except String Nat) ∈
        [("x", Except.ok 404), ("y", Except.ok 500)]) := by
  have h := C5_misspelled_iff_404
    [("x", Except.ok 404), ("y", Except.ok 500)] ["x"] rfl
  exact ⟨h.1, h.2 "x"⟩

/-- C6: a document fetch with any status other than 200 aborts the whole
operation immediately: the result is none and the wire trace contains the
document fetch only — zero spelling lookups are issued. -/
theorem C6_non200_aborts (s : Nat) (t : String)
    (arr : List (String × Except String Nat)) (h : s ≠ 200) :
    get_outside_email (Except.ok (s, t)) arr = (none, [Event.docFetch]) := by
  simp only [get_outside_email, get_document, if_pos h]

/-- Witness for C6: a 500 on the document fetch yields none with a
single-fetch trace. -/
theorem C6_witness :
    get_outside_email (Except.ok (500, "x")) [] = (none, [Event.docFetch]) :=
  C6_non200_aborts 500 "x" [] (by decide)

/-- C7: the tokenizer maps the spec's example text to exactly the listed
nine words, and in general every produced word is a non-empty string whose
characters are ASCII letters or apostrophes (line breaks become spaces,
fragments split at spaces and hyphens, every other character stripped,
empty fragments discarded, scan order and case preserved). -/
theorem C7_tokenizer :
    clean_and_format_document
        "Unit-testing.\n\nThis is forr the Outside interveiw test!" =
      ["Unit", "testing", "This", "is", "forr", "the", "Outside",
       "interveiw", "test"] ∧
    ∀ (doc w : String), w ∈ clean_and_format_document doc →
      w.data ≠ [] ∧ ∀ c ∈ w.data, (c.isAlpha = true ∨ c = '\'') := by
  constructor
  · rfl
  · intro doc w hw
    simp only [clean_and_format_document, List.mem_filterMap] at hw
    obtain ⟨frag, _, hfrag⟩ := hw
    by_cases he : (frag.filter (fun c => c.isAlpha || c == '\'')).isEmpty = true
    · rw [if_pos he] at hfrag
      cases hfrag
    · rw [if_neg he] at hfrag
      injection hfrag with hfrag
      subst hfrag
      constructor
      · intro hnil
        apply he
        have hfe : frag.filter (fun c => c.isAlpha || c == '\'') = [] := hnil
        rw [hfe]
        rfl
      · intro c hc
        have hp := List.of_mem_filter hc
        rcases Bool.or_eq_true_iff.mp hp with h | h
        · exact Or.inl h
        · exact Or.inr (by simpa using h)

/-- Witness for C7: the word `"hi"` tokenized from `"hi"` is well-formed;
its first character is an ASCII letter. -/
theorem C7_witness : ('h'.isAlpha = true ∨ 'h' = '\'') :=
  (C7_tokenizer.2 "hi" "hi" (by decide)).2 'h' (by decide)

/-- C8: `validate_and_hash` on an empty misspelled list fails immediately
with the empty-result error, for every document text — no position check or
hashing happens. -/
theorem C8_empty_rejected (doc : String) :
    validate_and_hash [] doc =
      Except.error "No words misspelled words found" := rfl

/-- C9: whenever reconciliation succeeds the returned digest is the
lowercase hex MD5 (128-bit, 32 hex characters) of the separator-free
concatenation of the misspelled words; in particular
`["forr", "interveiw"]` against the test document yields the MD5 of
`"forrinterveiw"`, which is the fixed value from the repository's tests. -/
theorem C9_digest :
    validate_and_hash ["forr", "interveiw"] TEST_DOC_TEXT =
      Except.ok (md5hex "forrinterveiw") ∧
    md5hex "forrinterveiw" = "5ffbab63d0296f874bafe4f9bbdd2e73" ∧
    ∀ (ms : List String) (doc r : String),
      validate_and_hash ms doc = Except.ok r →
        r = md5hex (String.join ms) ∧ r.length = 32 ∧
          ∀ c ∈ r.data, c ∈ ("0123456789abcdef").data := by
  refine ⟨rfl, rfl, ?_⟩
  intro ms doc r h
  have hr := validate_and_hash_ok ms doc r h
  subst hr
  refine ⟨rfl, ?_, ?_⟩
  · unfold md5hex
    rw [bytesToHex_length, md5Bytes_length]
  · intro c hc
    exact mem_bytesToHex _ c hc

/-- Witness for C9: the digest of `["hello"]` reconciled against `"hello"`
has 32 characters and is the MD5 of the concatenation. -/
theorem C9_witness :
    (md5hex "hello").length = 32 ∧
    md5hex "hello" = md5hex (String.join ["hello"]) := by
  have h := C9_digest.2.2 ["hello"] "hello" (md5hex "hello") rfl
  exact ⟨h.2.1, h.1⟩

/-- C10: for a word that occurs in the document, reconciling it repeated
`n ≥ 2` times succeeds — the alignment check raises only on a strictly
smaller position, and every repetition finds the same first occurrence — and
the digest is the word concatenated with itself `n` times. -/
theorem C10_repeated_word (doc w : String) (n : Nat) (hn : 2 ≤ n)
    (hocc : ∃ j, (w.data).isPrefixOf ((doc.data).drop j) = true) :
    validate_and_hash (List.replicate n w) doc =
      Except.ok (md5hex (String.join (List.replicate n w))) := by
  obtain ⟨k, hk⟩ := findAux_isSome w.data doc.data 0 hocc
  have hfind : pyFind doc w = (k : Int) := by
    unfold pyFind
    rw [hk]
  obtain ⟨m, rfl⟩ : ∃ m, n = m + 2 := ⟨n - 2, by omega⟩
  have hempty : (List.replicate (m + 2) w).isEmpty = false := rfl
  unfold validate_and_hash
  rw [hempty]
  simp only [Bool.false_eq_true, if_false]
  have hstep : validateLoop doc (List.replicate (m + 2) w) 0 =
      Except.ok (pyFind doc w) := by
    have h0 : ¬ pyFind doc w < 0 := by
      rw [hfind]
      exact not_lt.mpr (Int.natCast_nonneg k)
    show (if pyFind doc w < 0 then
        Except.error "Misspelled words are out of alignment. Need to re-verify"
      else validateLoop doc (List.replicate (m + 1) w) (pyFind doc w)) =
      Except.ok (pyFind doc w)
    rw [if_neg h0]
    exact validateLoop_replicate doc w (m + 1)
  rw [hstep]

/-- Witness for C10: `"a"` occurs in `"aa a"`, and the list `["a", "a"]`
reconciles successfully with the digest of `"aa"`. -/
theorem C10_witness :
    validate_and_hash (List.replicate 2 "a") "aa a" =
      Except.ok (md5hex (String.join (List.replicate 2 "a"))) :=
  C10_repeated_word "aa a" "a" 2 (by decide) ⟨0, by decide⟩

